import Mathlib

set_option maxHeartbeats 1000000

/-!
Verification of the SharePoint MCP connector (chatgpt-mcp).

The development shallowly embeds the core of the server:
the query cache and in-flight deduplication of `Graph.search`,
the upstream drive-search URL construction of `Graph.driveSearch`,
the retrying Graph helper `g`, the OAuth token cache `getGraphToken`,
the JSON-RPC batch engine behind `POST /mcp`, and the `fetch` tool
handler.  Asynchronous JavaScript is modelled by explicit state
passing: each `await`-free run of code is one atomic step, and a
promise settling is a separate step.
-/

namespace SharepointMcp

/-- Drive item metadata as cached by the query cache (the raw items of
the upstream search response, `result.value`). -/
structure Item where
  id : String
  name : String
  webUrl : Option String
deriving DecidableEq, Repr

/-- Source: `const CACHE_TTL = 5 * 60 * 1000; // 5 minutes` (milliseconds). -/
def CACHE_TTL : Nat := 5 * 60 * 1000

/-- Source: values of `queryCache = new Map<string, { results: any[]; timestamp: number }>()`. -/
structure CacheEntry where
  results : List Item
  timestamp : Nat
deriving DecidableEq, Repr

/-- Outcome of a settled drive-search promise: a fulfilled search
response (its `value` array) or a rejection carrying the error message. -/
inductive SearchOutcome where
  | ok (value : List Item)
  | fail (msg : String)
deriving DecidableEq, Repr

/-- One upstream drive-search call started by `Graph.search` (the
promise `this.driveSearch(normalizedQuery, top)`).  `promId` identifies
the promise, `key` is the cache key it was registered under in
`inFlightQueries`, `query` and `top` are the arguments passed to
`driveSearch`, and `settled` records whether the promise has settled. -/
structure UpCall where
  promId : Nat
  key : String
  query : String
  top : Nat
  settled : Bool
deriving DecidableEq, Repr

/-- State of one caller of `Graph.search`: still awaiting a promise, or
returned (normally or exceptionally) with an outcome. -/
inductive TaskState where
  | waitingOn (promId : Nat)
  | done (r : SearchOutcome)
deriving DecidableEq, Repr

/-- One invocation of `Graph.search`, identified by `tid`. -/
structure STask where
  tid : Nat
  state : TaskState
deriving DecidableEq, Repr

/-- The module-level mutable state used by `Graph.search`
(`queryCache`, `inFlightQueries`), together with a log of the upstream
calls that have been issued, a fresh-promise counter, and the caller
tasks. -/
structure SearchSys where
  queryCache : String → Option CacheEntry
  inFlightQueries : String → Option Nat
  upCalls : List UpCall
  nextProm : Nat
  tasks : List STask

/-- JavaScript `String.prototype.toLowerCase` (ASCII-relevant part),
written with structural recursion so that concrete instances compute. -/
def jsToLower (s : String) : String := ⟨s.data.map Char.toLower⟩

/-- JavaScript `String.prototype.trim`: drop whitespace from both ends. -/
def trimChars (cs : List Char) : List Char :=
  ((cs.dropWhile Char.isWhitespace).reverse.dropWhile Char.isWhitespace).reverse

def jsTrim (s : String) : String := ⟨trimChars s.data⟩

/-- Source: `const normalizedQuery = q.toLowerCase().trim();`. -/
def normalizedQuery (q : String) : String := jsTrim (jsToLower q)

/-- Source: ``const cacheKey = `search:${normalizedQuery}:${top}`;``. -/
def cacheKey (q : String) (top : Nat) : String :=
  "search:" ++ normalizedQuery q ++ ":" ++ toString top

/-- Source: `cached && Date.now() - cached.timestamp < CACHE_TTL`
(truncated natural subtraction agrees with the JavaScript comparison
outcome for every pair of numeric timestamps). -/
def cacheLive (s : SearchSys) (key : String) (now : Nat) : Bool :=
  match s.queryCache key with
  | some cached => decide (now - cached.timestamp < CACHE_TTL)
  | none => false

/-- The cache-miss tail of `Graph.search` (lines 132-141 of the source):
if an in-flight promise is registered for the key, await it; otherwise
start `driveSearch(normalizedQuery, top)`, register the promise in
`inFlightQueries`, and await it.  This whole run is synchronous in the
source (no `await` between the cache check and the `set`), hence one
atomic step here. -/
def searchMiss (s : SearchSys) (tid : Nat) (key q : String) (top : Nat) : SearchSys :=
  match s.inFlightQueries key with
  | some p => { s with tasks := ⟨tid, .waitingOn p⟩ :: s.tasks }
  | none =>
    let p := s.nextProm
    { s with
      upCalls := s.upCalls ++ [⟨p, key, normalizedQuery q, top, false⟩]
      inFlightQueries := fun k => if k = key then some p else s.inFlightQueries k
      nextProm := p + 1
      tasks := ⟨tid, .waitingOn p⟩ :: s.tasks }

/-- The synchronous prefix of one `Graph.search(q, top)` call: check the
cache, and on a live hit return `{ value: cached.results }` at once;
otherwise fall through to `searchMiss`. -/
def searchInvoke (s : SearchSys) (tid : Nat) (q : String) (top : Nat) (now : Nat) : SearchSys :=
  let key := cacheKey q top
  match s.queryCache key with
  | some cached =>
    if now - cached.timestamp < CACHE_TTL then
      { s with tasks := ⟨tid, .done (.ok cached.results)⟩ :: s.tasks }
    else searchMiss s tid key q top
  | none => searchMiss s tid key q top

/-- Resumption of one caller when promise `p` settles with outcome `r`:
a task awaiting `p` returns `r`, every other task is untouched. -/
def resolveTask (p : Nat) (r : SearchOutcome) (t : STask) : STask :=
  match t.state with
  | .waitingOn p2 => if p2 = p then { t with state := .done r } else t
  | .done _ => t

/-- Promise `p` settles with outcome `r` at time `now`: the owner's
continuation (lines 143-155 of the source) stores the results in
`queryCache` on success only, and in all cases (`finally`) deletes the
`inFlightQueries` entry for the key; every caller awaiting `p` resumes
with `r`.  Settling an unknown or already-settled promise is a no-op. -/
def searchSettle (s : SearchSys) (p : Nat) (r : SearchOutcome) (now : Nat) : SearchSys :=
  match s.upCalls.find? (fun c => c.promId == p && !c.settled) with
  | none => s
  | some c =>
    { queryCache := fun k =>
        if k = c.key then
          match r with
          | .ok v => some ⟨v, now⟩
          | .fail _ => s.queryCache k
        else s.queryCache k
      inFlightQueries := fun k => if k = c.key then none else s.inFlightQueries k
      upCalls := s.upCalls.map (fun c2 => if c2.promId = p then { c2 with settled := true } else c2)
      nextProm := s.nextProm
      tasks := s.tasks.map (resolveTask p r) }

/-- Events of the search subsystem: a new `Graph.search` invocation, or
an upstream promise settling. -/
inductive SEv where
  | invoke (tid : Nat) (q : String) (top : Nat) (now : Nat)
  | settle (p : Nat) (r : SearchOutcome) (now : Nat)

def sStep (s : SearchSys) (e : SEv) : SearchSys :=
  match e with
  | .invoke tid q top now => searchInvoke s tid q top now
  | .settle p r now => searchSettle s p r now

/-- The module-load state: both maps empty, no calls, no tasks. -/
def initSys : SearchSys :=
  { queryCache := fun _ => none
    inFlightQueries := fun _ => none
    upCalls := []
    nextProm := 0
    tasks := [] }

def runEvents (evs : List SEv) : SearchSys := evs.foldl sStep initSys

/-- The upstream calls for key `k` that have been issued but have not
settled. -/
def activeCalls (s : SearchSys) (k : String) : List UpCall :=
  s.upCalls.filter (fun c => c.key == k && !c.settled)

/-- The single-quote character, U+0027. -/
def quoteChar : Char := Char.ofNat 39

/-- Source, `Graph.driveSearch`: OData single-quote escaping,
`q.replace(/'/g, "''")` — every single quote is doubled. -/
def escapeQuoteChars : List Char → List Char
  | [] => []
  | c :: cs =>
    if c = quoteChar then c :: c :: escapeQuoteChars cs
    else c :: escapeQuoteChars cs

def escapeQuotes (q : String) : String := ⟨escapeQuoteChars q.data⟩

/-- Source, `Graph.driveSearch`: the request URL
`/drives/DRIVE_ID[/items/ROOT]/root/search(q='safe')?$top=top`. -/
def driveSearchUrl (driveId : String) (rootItemId : Option String) (q : String) (top : Nat) : String :=
  let safe := escapeQuotes q
  let base :=
    match rootItemId with
    | some rid => "/drives/" ++ driveId ++ "/items/" ++ rid ++ "/search(q=\x27" ++ safe ++ "\x27)"
    | none => "/drives/" ++ driveId ++ "/root/search(q=\x27" ++ safe ++ "\x27)"
  base ++ "?$top=" ++ toString top

/-- The upstream request URL of an issued call: `driveSearch` is invoked
with the call's `query` and `top` fields. -/
def upCallUrl (driveId : String) (rootItemId : Option String) (c : UpCall) : String :=
  driveSearchUrl driveId rootItemId c.query c.top

/-- A concrete result set used in concrete runs of the model. -/
def budgetItems : List Item := [⟨"item-1", "Budget.xlsx", some "https://contoso/b"⟩]

theorem cacheLive_false_invoke (s : SearchSys) (tid : Nat) (q : String) (top now : Nat)
    (h : cacheLive s (cacheKey q top) now = false) :
    searchInvoke s tid q top now = searchMiss s tid (cacheKey q top) q top := by
  unfold searchInvoke
  unfold cacheLive at h
  cases hc : s.queryCache (cacheKey q top) with
  | none => simp [hc]
  | some cached =>
    rw [hc] at h
    simp only [decide_eq_false_iff_not] at h
    simp [hc, h]

theorem searchMiss_noInflight (s : SearchSys) (tid : Nat) (key q : String) (top : Nat)
    (h : s.inFlightQueries key = none) :
    searchMiss s tid key q top =
      { s with
        upCalls := s.upCalls ++ [⟨s.nextProm, key, normalizedQuery q, top, false⟩]
        inFlightQueries := fun k => if k = key then some s.nextProm else s.inFlightQueries k
        nextProm := s.nextProm + 1
        tasks := ⟨tid, .waitingOn s.nextProm⟩ :: s.tasks } := by
  unfold searchMiss
  rw [h]

theorem searchMiss_inflight (s : SearchSys) (tid : Nat) (key q : String) (top p : Nat)
    (h : s.inFlightQueries key = some p) :
    searchMiss s tid key q top = { s with tasks := ⟨tid, .waitingOn p⟩ :: s.tasks } := by
  unfold searchMiss
  rw [h]

/-- C3: `search(query, limit)` with a live (younger than the 5-minute
TTL) cache entry for the key formed from the trimmed, case-folded query
plus the limit returns that entry's results and issues no upstream
call; an entry at least as old as the TTL is never served (the call
proceeds exactly as on a miss, and the caller is left awaiting a
promise rather than being handed the stale results).  In particular,
`search("Budget", 20)` followed immediately by `search("  budget  ", 20)`
issues exactly one upstream search call and serves the second caller
the first call's results. -/
theorem C3_cache_hit_and_ttl :
    (∀ s tid q top now cached, s.queryCache (cacheKey q top) = some cached →
        now - cached.timestamp < CACHE_TTL →
        searchInvoke s tid q top now =
          { s with tasks := ⟨tid, .done (.ok cached.results)⟩ :: s.tasks }) ∧
    (∀ s tid q top now cached, s.queryCache (cacheKey q top) = some cached →
        CACHE_TTL ≤ now - cached.timestamp →
        searchInvoke s tid q top now = searchMiss s tid (cacheKey q top) q top ∧
        ∃ p, (searchInvoke s tid q top now).tasks = ⟨tid, .waitingOn p⟩ :: s.tasks) ∧
    ((runEvents [SEv.invoke 1 ("Budget") 20 0, SEv.settle 0 (.ok budgetItems) 5,
        SEv.invoke 2 ("  budget  ") 20 10]).upCalls.length = 1 ∧
      (⟨2, .done (.ok budgetItems)⟩ : STask) ∈
        (runEvents [SEv.invoke 1 ("Budget") 20 0, SEv.settle 0 (.ok budgetItems) 5,
          SEv.invoke 2 ("  budget  ") 20 10]).tasks) := by
  refine ⟨?_, ?_, ?_, ?_⟩
  · intro s tid q top now cached hc hlt
    unfold searchInvoke
    simp [hc, hlt]
  · intro s tid q top now cached hc hge
    have hlive : cacheLive s (cacheKey q top) now = false := by
      unfold cacheLive
      rw [hc]
      simp
      omega
    have hm := cacheLive_false_invoke s tid q top now hlive
    refine ⟨hm, ?_⟩
    rw [hm]
    unfold searchMiss
    cases hf : s.inFlightQueries (cacheKey q top) with
    | none => exact ⟨s.nextProm, rfl⟩
    | some p => exact ⟨p, rfl⟩
  · decide
  · decide

/-- C3 witness: the cache-hit clause applied at a concrete state — the
state reached after a settled search for "Budget" — showing a second
call with the same normalized key is answered from the cache with the
upstream-call log unchanged. -/
theorem C3_witness :
    searchInvoke (runEvents [SEv.invoke 1 ("Budget") 20 0, SEv.settle 0 (.ok budgetItems) 5])
        3 ("Budget") 20 10 =
      { runEvents [SEv.invoke 1 ("Budget") 20 0, SEv.settle 0 (.ok budgetItems) 5] with
        tasks := ⟨3, .done (.ok budgetItems)⟩ ::
          (runEvents [SEv.invoke 1 ("Budget") 20 0, SEv.settle 0 (.ok budgetItems) 5]).tasks } :=
  C3_cache_hit_and_ttl.1
    (runEvents [SEv.invoke 1 ("Budget") 20 0, SEv.settle 0 (.ok budgetItems) 5])
    3 ("Budget") 20 10 ⟨budgetItems, 5⟩ (by decide) (by decide)

/-- C10: on a cache miss with no in-flight duplicate, `Graph.search`
forwards the normalized (trimmed, lower-cased) query to the upstream
drive-search call — the issued call carries `normalizedQuery q`, not
`q` — so two searches whose queries normalize identically (differ only
in letter case or surrounding whitespace) issue upstream calls with
byte-identical request URLs. -/
theorem C10_normalized_upstream_url :
    (∀ s tid q top now, cacheLive s (cacheKey q top) now = false →
        s.inFlightQueries (cacheKey q top) = none →
        (searchInvoke s tid q top now).upCalls =
          s.upCalls ++ [⟨s.nextProm, cacheKey q top, normalizedQuery q, top, false⟩]) ∧
    (∀ driveId rootItemId s1 s2 tid1 tid2 q1 q2 top now1 now2,
        cacheLive s1 (cacheKey q1 top) now1 = false →
        s1.inFlightQueries (cacheKey q1 top) = none →
        cacheLive s2 (cacheKey q2 top) now2 = false →
        s2.inFlightQueries (cacheKey q2 top) = none →
        jsTrim (jsToLower q1) = jsTrim (jsToLower q2) →
        ∃ c1 c2,
          (searchInvoke s1 tid1 q1 top now1).upCalls = s1.upCalls ++ [c1] ∧
          (searchInvoke s2 tid2 q2 top now2).upCalls = s2.upCalls ++ [c2] ∧
          upCallUrl driveId rootItemId c1 = upCallUrl driveId rootItemId c2) := by
  have key : ∀ (s : SearchSys) (tid : Nat) (q : String) (top now : Nat),
      cacheLive s (cacheKey q top) now = false →
      s.inFlightQueries (cacheKey q top) = none →
      (searchInvoke s tid q top now).upCalls =
        s.upCalls ++ [⟨s.nextProm, cacheKey q top, normalizedQuery q, top, false⟩] := by
    intro s tid q top now hlive hf
    rw [cacheLive_false_invoke s tid q top now hlive,
      searchMiss_noInflight s tid (cacheKey q top) q top hf]
  refine ⟨key, ?_⟩
  intro driveId rootItemId s1 s2 tid1 tid2 q1 q2 top now1 now2 h1 h2 h3 h4 hnorm
  refine ⟨⟨s1.nextProm, cacheKey q1 top, normalizedQuery q1, top, false⟩,
    ⟨s2.nextProm, cacheKey q2 top, normalizedQuery q2, top, false⟩,
    key s1 tid1 q1 top now1 h1 h2, key s2 tid2 q2 top now2 h3 h4, ?_⟩
  unfold upCallUrl normalizedQuery
  rw [hnorm]

/-- System invariant tying `inFlightQueries` to the unsettled upstream
calls: the registered promise of a key is exactly its unique unsettled
call, promise ids are pairwise distinct and below the fresh counter. -/
structure SysInv (s : SearchSys) : Prop where
  pw : s.upCalls.Pairwise (fun a b => a.promId ≠ b.promId)
  lt : ∀ c ∈ s.upCalls, c.promId < s.nextProm
  act_inf : ∀ c ∈ s.upCalls, c.settled = false → s.inFlightQueries c.key = some c.promId
  inf_act : ∀ k p, s.inFlightQueries k = some p →
    ∃ c ∈ s.upCalls, c.promId = p ∧ c.key = k ∧ c.settled = false

theorem pairwise_promId_eq {l : List UpCall}
    (hp : l.Pairwise (fun a b => a.promId ≠ b.promId))
    {c1 c2 : UpCall} (h1 : c1 ∈ l) (h2 : c2 ∈ l) (he : c1.promId = c2.promId) : c1 = c2 := by
  induction l with
  | nil => cases h1
  | cons a l ih =>
    rw [List.pairwise_cons] at hp
    rcases List.mem_cons.mp h1 with rfl | h1t
    · rcases List.mem_cons.mp h2 with rfl | h2t
      · rfl
      · exact absurd he (hp.1 c2 h2t)
    · rcases List.mem_cons.mp h2 with rfl | h2t
      · exact absurd he.symm (hp.1 c1 h1t)
      · exact ih hp.2 h1t h2t

theorem initSys_inv : SysInv initSys := by
  refine ⟨List.Pairwise.nil, ?_, ?_, ?_⟩
  · intro c hc; cases hc
  · intro c hc; cases hc
  · intro k p h; cases h

theorem searchMiss_inv (s : SearchSys) (tid : Nat) (key q : String) (top : Nat)
    (hinv : SysInv s) : SysInv (searchMiss s tid key q top) := by
  unfold searchMiss
  cases hf : s.inFlightQueries key with
  | some p => exact ⟨hinv.pw, hinv.lt, hinv.act_inf, hinv.inf_act⟩
  | none =>
    refine ⟨?_, ?_, ?_, ?_⟩
    · rw [List.pairwise_append]
      refine ⟨hinv.pw, List.pairwise_singleton _ _, ?_⟩
      intro a ha b hb
      rcases List.mem_singleton.mp hb with rfl
      have := hinv.lt a ha
      simp only []
      omega
    · intro c hc
      rcases List.mem_append.mp hc with h | h
      · have := hinv.lt c h
        simp only []
        omega
      · rcases List.mem_singleton.mp h with rfl
        simp
    · intro c hc hsettled
      rcases List.mem_append.mp hc with h | h
      · have hk : s.inFlightQueries c.key = some c.promId := hinv.act_inf c h hsettled
        have hne : c.key ≠ key := by
          intro he
          rw [he, hf] at hk
          cases hk
        simp only [if_neg hne]
        exact hk
      · rcases List.mem_singleton.mp h with rfl
        simp
    · intro k p hp
      by_cases hk : k = key
      · subst hk
        simp only [if_pos rfl] at hp
        rcases hp with ⟨rfl⟩
        exact ⟨⟨s.nextProm, k, normalizedQuery q, top, false⟩,
          List.mem_append.mpr (Or.inr (List.mem_singleton.mpr rfl)), rfl, rfl, rfl⟩
      · simp only [if_neg hk] at hp
        rcases hinv.inf_act k p hp with ⟨c, hc, hcp, hck, hcs⟩
        exact ⟨c, List.mem_append.mpr (Or.inl hc), hcp, hck, hcs⟩

theorem searchInvoke_inv (s : SearchSys) (tid : Nat) (q : String) (top now : Nat)
    (hinv : SysInv s) : SysInv (searchInvoke s tid q top now) := by
  unfold searchInvoke
  cases hc : s.queryCache (cacheKey q top) with
  | none =>
    simp only [hc]
    exact searchMiss_inv s tid (cacheKey q top) q top hinv
  | some cached =>
    simp only [hc]
    by_cases hl : now - cached.timestamp < CACHE_TTL
    · rw [if_pos hl]
      exact ⟨hinv.pw, hinv.lt, hinv.act_inf, hinv.inf_act⟩
    · rw [if_neg hl]
      exact searchMiss_inv s tid (cacheKey q top) q top hinv

theorem searchSettle_inv (s : SearchSys) (p : Nat) (r : SearchOutcome) (now : Nat)
    (hinv : SysInv s) : SysInv (searchSettle s p r now) := by
  unfold searchSettle
  cases hfind : s.upCalls.find? (fun c => c.promId == p && !c.settled) with
  | none => exact hinv
  | some c0 =>
    have hc0mem : c0 ∈ s.upCalls := List.mem_of_find?_eq_some hfind
    have hc0pred := List.find?_some hfind
    simp only [Bool.and_eq_true, beq_iff_eq, Bool.not_eq_true'] at hc0pred
    obtain ⟨hc0p, hc0s⟩ := hc0pred
    have hpidmap : ∀ c : UpCall,
        (if c.promId = p then { c with settled := true } else c).promId = c.promId := by
      intro c; split <;> rfl
    refine ⟨?_, ?_, ?_, ?_⟩
    · refine List.Pairwise.map _ ?_ hinv.pw
      intro a b hab
      rw [hpidmap a, hpidmap b]
      exact hab
    · intro c hc
      rcases List.mem_map.mp hc with ⟨c1, hc1, rfl⟩
      rw [hpidmap c1]
      exact hinv.lt c1 hc1
    · intro c hc hsettled
      rcases List.mem_map.mp hc with ⟨c1, hc1, rfl⟩
      by_cases h1 : c1.promId = p
      · simp only [if_pos h1] at hsettled
        cases hsettled
      · simp only [if_neg h1] at hsettled ⊢
        have hk1 : s.inFlightQueries c1.key = some c1.promId := hinv.act_inf c1 hc1 hsettled
        have hne : c1.key ≠ c0.key := by
          intro he
          have hk0 : s.inFlightQueries c0.key = some c0.promId := hinv.act_inf c0 hc0mem hc0s
          rw [he, hk0] at hk1
          injection hk1 with h
          exact h1 (by rw [← h]; exact hc0p)
        simp only [if_neg hne]
        exact hk1
    · intro k p2 hp2
      by_cases hk : k = c0.key
      · simp only [if_pos hk] at hp2
        cases hp2
      · simp only [if_neg hk] at hp2
        rcases hinv.inf_act k p2 hp2 with ⟨c, hc, hcp, hck, hcs⟩
        have hcnp : c.promId ≠ p := by
          intro he
          have : c = c0 := pairwise_promId_eq hinv.pw hc hc0mem (by rw [he, hc0p])
          rw [this] at hck
          exact hk hck.symm
        refine ⟨c, List.mem_map.mpr ⟨c, hc, by simp [hcnp]⟩, hcp, hck, hcs⟩

theorem sStep_inv (s : SearchSys) (e : SEv) (hinv : SysInv s) : SysInv (sStep s e) := by
  cases e with
  | invoke tid q top now => exact searchInvoke_inv s tid q top now hinv
  | settle p r now => exact searchSettle_inv s p r now hinv

theorem foldl_inv (evs : List SEv) : ∀ s : SearchSys, SysInv s → SysInv (evs.foldl sStep s) := by
  induction evs with
  | nil => intro s h; exact h
  | cons e evs ih => intro s h; exact ih (sStep s e) (sStep_inv s e h)

theorem runEvents_inv (evs : List SEv) : SysInv (runEvents evs) :=
  foldl_inv evs initSys initSys_inv

theorem active_le_one (s : SearchSys) (hinv : SysInv s) (k : String) :
    (activeCalls s k).length ≤ 1 := by
  cases hl : activeCalls s k with
  | nil => simp
  | cons a t =>
    cases ht : t with
    | nil => simp
    | cons b t2 =>
      exfalso
      subst ht
      have hpw : (activeCalls s k).Pairwise (fun x y => x.promId ≠ y.promId) :=
        hinv.pw.filter _
      rw [hl, List.pairwise_cons] at hpw
      have hab : a.promId ≠ b.promId := hpw.1 b (List.mem_cons_self b t2)
      have hamem : a ∈ activeCalls s k := by rw [hl]; exact List.mem_cons_self a _
      have hbmem : b ∈ activeCalls s k := by
        rw [hl]; exact List.mem_cons.mpr (Or.inr (List.mem_cons_self b t2))
      unfold activeCalls at hamem hbmem
      rcases List.mem_filter.mp hamem with ⟨ha, hpa⟩
      rcases List.mem_filter.mp hbmem with ⟨hb, hpb⟩
      simp only [Bool.and_eq_true, beq_iff_eq, Bool.not_eq_true'] at hpa hpb
      have hka := hinv.act_inf a ha hpa.2
      have hkb := hinv.act_inf b hb hpb.2
      rw [hpa.1] at hka
      rw [hpb.1] at hkb
      rw [hka] at hkb
      injection hkb with h
      exact hab h

theorem settle_find (s : SearchSys) (k : String) (p : Nat) (hinv : SysInv s)
    (h : s.inFlightQueries k = some p) :
    ∃ c0, s.upCalls.find? (fun c => c.promId == p && !c.settled) = some c0 ∧
      c0.key = k ∧ c0.promId = p ∧ c0.settled = false := by
  rcases hinv.inf_act k p h with ⟨c, hc, hcp, hck, hcs⟩
  cases hfind : s.upCalls.find? (fun c => c.promId == p && !c.settled) with
  | none =>
    exfalso
    have := List.find?_eq_none.mp hfind c hc
    simp only [Bool.and_eq_true, beq_iff_eq, Bool.not_eq_true'] at this
    exact this ⟨hcp, hcs⟩
  | some c0 =>
    have hc0mem : c0 ∈ s.upCalls := List.mem_of_find?_eq_some hfind
    have hc0pred := List.find?_some hfind
    simp only [Bool.and_eq_true, beq_iff_eq, Bool.not_eq_true'] at hc0pred
    have hcc0 : c = c0 := pairwise_promId_eq hinv.pw hc hc0mem (by rw [hcp, hc0pred.1])
    exact ⟨c0, rfl, by rw [← hcc0]; exact hck, hc0pred.1, hc0pred.2⟩

theorem settle_clears (s : SearchSys) (k : String) (p : Nat) (r : SearchOutcome) (now : Nat)
    (hinv : SysInv s) (h : s.inFlightQueries k = some p) :
    (searchSettle s p r now).inFlightQueries k = none := by
  rcases settle_find s k p hinv h with ⟨c0, hfind, hk, _, _⟩
  unfold searchSettle
  rw [hfind]
  simp [hk]

theorem settle_tasks (s : SearchSys) (k : String) (p : Nat) (r : SearchOutcome) (now : Nat)
    (hinv : SysInv s) (h : s.inFlightQueries k = some p) :
    (searchSettle s p r now).tasks = s.tasks.map (resolveTask p r) := by
  rcases settle_find s k p hinv h with ⟨c0, hfind, _, _, _⟩
  unfold searchSettle
  rw [hfind]

theorem settle_fail_cache (s : SearchSys) (p : Nat) (msg : String) (now : Nat) :
    (searchSettle s p (.fail msg) now).queryCache = s.queryCache := by
  unfold searchSettle
  cases hfind : s.upCalls.find? (fun c => c.promId == p && !c.settled) with
  | none => rfl
  | some c0 =>
    funext k
    by_cases hk : k = c0.key
    · simp [hk]
    · simp [hk]

/-- C1: for every cache key, at most one upstream search call is in
flight at any reachable instant; a second `search` call for the same
key issued before the first settles (in-flight promise registered, no
live cache entry) issues no upstream call of its own and awaits the
registered promise; when the promise settles, every caller awaiting it
receives the same outcome; and the in-flight entry for the key is
removed by the settling step whether it succeeds or fails. -/
theorem C1_dedup_invariant (evs : List SEv) :
    (∀ k, (activeCalls (runEvents evs) k).length ≤ 1) ∧
    (∀ tid q top now p,
        cacheLive (runEvents evs) (cacheKey q top) now = false →
        (runEvents evs).inFlightQueries (cacheKey q top) = some p →
        (searchInvoke (runEvents evs) tid q top now).upCalls = (runEvents evs).upCalls ∧
        (searchInvoke (runEvents evs) tid q top now).tasks =
          ⟨tid, .waitingOn p⟩ :: (runEvents evs).tasks) ∧
    (∀ k p r now t,
        (runEvents evs).inFlightQueries k = some p →
        t ∈ (runEvents evs).tasks → t.state = .waitingOn p →
        (⟨t.tid, .done r⟩ : STask) ∈ (searchSettle (runEvents evs) p r now).tasks) ∧
    (∀ k p r now,
        (runEvents evs).inFlightQueries k = some p →
        (searchSettle (runEvents evs) p r now).inFlightQueries k = none) := by
  have hinv := runEvents_inv evs
  refine ⟨fun k => active_le_one _ hinv k, ?_, ?_, ?_⟩
  · intro tid q top now p hlive hp
    rw [cacheLive_false_invoke _ tid q top now hlive,
      searchMiss_inflight _ tid (cacheKey q top) q top p hp]
    exact ⟨rfl, rfl⟩
  · intro k p r now t hp ht hts
    rw [settle_tasks _ k p r now hinv hp]
    refine List.mem_map.mpr ⟨t, ht, ?_⟩
    unfold resolveTask
    rw [hts]
    simp
  · intro k p r now hp
    exact settle_clears _ k p r now hinv hp

/-- C1 witness: two concurrent `search("Q4 Report", 10)` calls — the
second joins the in-flight promise 0 without a second upstream call,
and settling promise 0 clears the in-flight slot. -/
theorem C1_witness :
    ((searchInvoke (runEvents [SEv.invoke 1 ("Q4 Report") 10 0, SEv.invoke 2 ("Q4 Report") 10 0])
        3 ("Q4 Report") 10 0).upCalls =
      (runEvents [SEv.invoke 1 ("Q4 Report") 10 0, SEv.invoke 2 ("Q4 Report") 10 0]).upCalls) ∧
    ((searchSettle (runEvents [SEv.invoke 1 ("Q4 Report") 10 0, SEv.invoke 2 ("Q4 Report") 10 0])
        0 (.ok budgetItems) 7).inFlightQueries (cacheKey ("Q4 Report") 10) = none) :=
  ⟨((C1_dedup_invariant [SEv.invoke 1 ("Q4 Report") 10 0, SEv.invoke 2 ("Q4 Report") 10 0]).2.1
      3 ("Q4 Report") 10 0 0 (by decide) (by decide)).1,
    (C1_dedup_invariant [SEv.invoke 1 ("Q4 Report") 10 0, SEv.invoke 2 ("Q4 Report") 10 0]).2.2.2
      (cacheKey ("Q4 Report") 10) 0 (.ok budgetItems) 7 (by decide)⟩

/-- C4: when the upstream search call for a key fails, nothing is
stored in the query cache (the whole cache map is unchanged by a
failing settle), the in-flight slot for the key is cleared by the same
settling step that delivers the error to every awaiting caller, and a
later call for a key with no cached entry issues a fresh upstream
call. -/
theorem C4_failure_not_cached (evs : List SEv) :
    (∀ p msg now,
        (searchSettle (runEvents evs) p (.fail msg) now).queryCache = (runEvents evs).queryCache) ∧
    (∀ k p msg now,
        (runEvents evs).inFlightQueries k = some p →
        (searchSettle (runEvents evs) p (.fail msg) now).inFlightQueries k = none ∧
        ∀ t ∈ (runEvents evs).tasks, t.state = .waitingOn p →
          (⟨t.tid, .done (.fail msg)⟩ : STask) ∈
            (searchSettle (runEvents evs) p (.fail msg) now).tasks) ∧
    (∀ p msg now tid q top now2,
        (runEvents evs).inFlightQueries (cacheKey q top) = some p →
        (runEvents evs).queryCache (cacheKey q top) = none →
        (searchInvoke (searchSettle (runEvents evs) p (.fail msg) now) tid q top now2).upCalls =
          (searchSettle (runEvents evs) p (.fail msg) now).upCalls ++
            [⟨(searchSettle (runEvents evs) p (.fail msg) now).nextProm, cacheKey q top,
              normalizedQuery q, top, false⟩]) := by
  have hinv := runEvents_inv evs
  refine ⟨fun p msg now => settle_fail_cache _ p msg now, ?_, ?_⟩
  · intro k p msg now hp
    refine ⟨settle_clears _ k p (.fail msg) now hinv hp, ?_⟩
    intro t ht hts
    rw [settle_tasks _ k p (.fail msg) now hinv hp]
    refine List.mem_map.mpr ⟨t, ht, ?_⟩
    unfold resolveTask
    rw [hts]
    simp
  · intro p msg now tid q top now2 hp hcache
    have hcache2 :
        (searchSettle (runEvents evs) p (.fail msg) now).queryCache (cacheKey q top) = none := by
      rw [settle_fail_cache _ p msg now]
      exact hcache
    have hlive : cacheLive (searchSettle (runEvents evs) p (.fail msg) now)
        (cacheKey q top) now2 = false := by
      unfold cacheLive
      rw [hcache2]
    rw [cacheLive_false_invoke _ tid q top now2 hlive,
      searchMiss_noInflight _ tid (cacheKey q top) q top
        (settle_clears _ (cacheKey q top) p (.fail msg) now hinv hp)]

/-- C4 witness: a failing first `search("Q4 Report", 10)` caches
nothing and clears the in-flight slot, and a retry then issues a fresh
upstream call (promise 1). -/
theorem C4_witness :
    (searchInvoke (searchSettle (runEvents [SEv.invoke 1 ("Q4 Report") 10 0])
        0 (.fail ("Graph 503")) 5) 2 ("Q4 Report") 10 6).upCalls =
      (searchSettle (runEvents [SEv.invoke 1 ("Q4 Report") 10 0])
        0 (.fail ("Graph 503")) 5).upCalls ++
        [⟨(searchSettle (runEvents [SEv.invoke 1 ("Q4 Report") 10 0])
            0 (.fail ("Graph 503")) 5).nextProm, cacheKey ("Q4 Report") 10,
          normalizedQuery ("Q4 Report"), 10, false⟩] :=
  (C4_failure_not_cached [SEv.invoke 1 ("Q4 Report") 10 0]).2.2
    0 ("Graph 503") 5 2 ("Q4 Report") 10 6 (by decide) (by decide)

/-- C10 witness: "Q4 Report" and "  q4 report " issue upstream calls
with the same request URL from the initial state. -/
theorem C10_witness :
    ∃ c1 c2,
      (searchInvoke initSys 1 ("Q4 Report") 10 0).upCalls = initSys.upCalls ++ [c1] ∧
      (searchInvoke initSys 2 ("  q4 report ") 10 0).upCalls = initSys.upCalls ++ [c2] ∧
      upCallUrl ("drive-1") none c1 = upCallUrl ("drive-1") none c2 :=
  C10_normalized_upstream_url.2 ("drive-1") none initSys initSys 1 2
    ("Q4 Report") ("  q4 report ") 10 0 0
    (by decide) (by decide) (by decide) (by decide) (by decide)

/-! The resilient Graph helper `g` (source lines 70-113 of the main
variant).  Responses and jitter come from oracles (attempt number ↦
observed response, attempt number ↦ value of `Math.random() * 1000`);
the run records the final result and the log of sleep delays in
milliseconds. -/

/-- One HTTP response seen by `g`: success (`resp.ok`), or a failure
with its status, optional parsed `Retry-After` header (seconds), and
error body. -/
inductive UpResp where
  | ok (body : String)
  | failure (status : Nat) (retryAfter : Option Nat) (body : String)
deriving DecidableEq, Repr

/-- Errors thrown by `g`: the non-retried throw carrying status and
parsed-or-raw body, and the post-loop "failed after N attempts" throw
(dead code: the last iteration always returns or throws inside the
loop, because `continue` requires `attempt < retries`). -/
inductive GErr where
  | httpError (status : Nat) (body : String)
  | exhausted (attempts : Nat)
deriving DecidableEq, Repr

inductive GOutcome where
  | success (body : String)
  | failed (e : GErr)
deriving DecidableEq, Repr

structure GRun where
  result : GOutcome
  delays : List Nat
deriving DecidableEq, Repr

/-- Source: `Math.min(Math.pow(2, attempt) * 1000 + Math.random() * 1000, 30000)`. -/
def jitterDelay (attempt jitter : Nat) : Nat :=
  min (2 ^ attempt * 1000 + jitter) 30000

/-- Source: `retryAfter ? parseInt(retryAfter) * 1000 : Math.min(...)`. -/
def retry429Delay (retryAfter : Option Nat) (attempt jitter : Nat) : Nat :=
  match retryAfter with
  | some secs => secs * 1000
  | none => jitterDelay attempt jitter

/-- The retry loop of `g`: `for (let attempt = 0; attempt <= retries;
attempt++)`.  The fuel argument counts the remaining iterations
(`retries + 1 - attempt`); fuel 0 is the loop exit, the final
retry-exhaustion throw. -/
def gLoop (responses : Nat → UpResp) (jitter : Nat → Nat) (retries : Nat) :
    Nat → Nat → GRun
  | _, 0 => ⟨.failed (.exhausted (retries + 1)), []⟩
  | attempt, fuel + 1 =>
    match responses attempt with
    | .ok b => ⟨.success b, []⟩
    | .failure status ra body =>
      if status = 429 ∧ attempt < retries then
        let rest := gLoop responses jitter retries (attempt + 1) fuel
        ⟨rest.result, retry429Delay ra attempt (jitter attempt) :: rest.delays⟩
      else if 500 ≤ status ∧ status < 600 ∧ attempt < retries then
        let rest := gLoop responses jitter retries (attempt + 1) fuel
        ⟨rest.result, jitterDelay attempt (jitter attempt) :: rest.delays⟩
      else ⟨.failed (.httpError status body), []⟩

/-- A whole call of `g(path, init, retries)` after the token fetch. -/
def gRun (responses : Nat → UpResp) (jitter : Nat → Nat) (retries : Nat) : GRun :=
  gLoop responses jitter retries 0 (retries + 1)

/-- Response oracle: 429 with `Retry-After: 1` on the first three
attempts, success on the fourth. -/
def cex429 : Nat → UpResp :=
  fun n => if n < 3 then .failure 429 (some 1) ("throttled") else .ok ("yes")

/-- Response oracle: 500 carrying `Retry-After: 45` on the first
attempt, success afterwards. -/
def cex500 : Nat → UpResp :=
  fun n => if n = 0 then .failure 500 (some 45) ("server error") else .ok ("fine")

def zeroJitter : Nat → Nat := fun _ => 0

theorem gLoop_all429 (responses : Nat → UpResp) (jitter : Nat → Nat) (retries : Nat)
    (ra : Nat → Option Nat) (b : Nat → String) :
    ∀ fuel attempt, attempt + fuel = retries + 1 → attempt ≤ retries →
      (∀ i, i ≤ retries → responses i = .failure 429 (ra i) (b i)) →
      (gLoop responses jitter retries attempt fuel).result = .failed (.httpError 429 (b retries)) := by
  intro fuel
  induction fuel with
  | zero => intro attempt h1 h2 _; omega
  | succ fuel ih =>
    intro attempt h1 h2 hresp
    by_cases hlt : attempt < retries
    · simp [gLoop, hresp attempt h2, hlt]
      exact ih (attempt + 1) (by omega) (by omega) hresp
    · have heq : attempt = retries := by omega
      subst heq
      simp [gLoop, hresp attempt h2, hlt]

/-- C2 counterexample: with `maxRetries = 3`, three consecutive 429
responses do not make the call fail — the fourth attempt is still made
and here succeeds, so "after maxRetries consecutive 429s the call
fails" is false as stated; and a 500 response carrying
`Retry-After: 45` is not given the 429 backoff treatment — the code
sleeps the jitter-formula delay (1000 ms with zero jitter), not the
header's 45000 ms. -/
theorem C2_counterexample :
    (cex429 0 = .failure 429 (some 1) ("throttled")) ∧
    (cex429 1 = .failure 429 (some 1) ("throttled")) ∧
    (cex429 2 = .failure 429 (some 1) ("throttled")) ∧
    (gRun cex429 zeroJitter 3).result = .success ("yes") ∧
    (cex500 0 = .failure 500 (some 45) ("server error")) ∧
    (gRun cex500 zeroJitter 3).delays = [1000] ∧ (1000 : Nat) ≠ 45 * 1000 := by
  decide

/-- C2 (amended): a 429 with attempts remaining sleeps `Retry-After`
seconds if the header is present, else `min(2^attempt*1000 +
random(0,1000), 30000)` ms, then retries; a 500-599 with attempts
remaining always sleeps the jitter-formula delay (`Retry-After` is
not consulted for 5xx), then retries; when every one of the
`maxRetries + 1` attempts receives a 429, the call fails with the
error carrying status 429 and the last attempt's body; any other
failure status fails immediately with the status code and the error
body, with no retry and no sleep. -/
theorem C2_retry_policy_amended :
    (∀ responses jitter retries attempt fuel ra b, attempt < retries →
        responses attempt = .failure 429 ra b →
        gLoop responses jitter retries attempt (fuel + 1) =
          ⟨(gLoop responses jitter retries (attempt + 1) fuel).result,
            retry429Delay ra attempt (jitter attempt) ::
              (gLoop responses jitter retries (attempt + 1) fuel).delays⟩) ∧
    (∀ secs attempt j, retry429Delay (some secs) attempt j = secs * 1000) ∧
    (∀ attempt j, retry429Delay none attempt j = min (2 ^ attempt * 1000 + j) 30000) ∧
    (∀ responses jitter retries attempt fuel status ra b,
        500 ≤ status → status < 600 → attempt < retries →
        responses attempt = .failure status ra b →
        gLoop responses jitter retries attempt (fuel + 1) =
          ⟨(gLoop responses jitter retries (attempt + 1) fuel).result,
            jitterDelay attempt (jitter attempt) ::
              (gLoop responses jitter retries (attempt + 1) fuel).delays⟩) ∧
    (∀ responses jitter retries (ra : Nat → Option Nat) (b : Nat → String),
        (∀ i, i ≤ retries → responses i = .failure 429 (ra i) (b i)) →
        (gRun responses jitter retries).result = .failed (.httpError 429 (b retries))) ∧
    (∀ responses jitter retries attempt fuel status ra b,
        status ≠ 429 → ¬(500 ≤ status ∧ status < 600) →
        responses attempt = .failure status ra b →
        gLoop responses jitter retries attempt (fuel + 1) =
          ⟨.failed (.httpError status b), []⟩) := by
  refine ⟨?_, fun _ _ _ => rfl, fun _ _ => rfl, ?_, ?_, ?_⟩
  · intro responses jitter retries attempt fuel ra b hlt hresp
    simp [gLoop, hresp, hlt]
  · intro responses jitter retries attempt fuel status ra b h5 h6 hlt hresp
    have h429 : status ≠ 429 := by omega
    simp [gLoop, hresp, h429, h5, h6, hlt]
  · intro responses jitter retries ra b hresp
    exact gLoop_all429 responses jitter retries ra b (retries + 1) 0 (by omega) (by omega) hresp
  · intro responses jitter retries attempt fuel status ra b h429 h5xx hresp
    have hno : ¬(500 ≤ status ∧ status < 600 ∧ attempt < retries) :=
      fun h => h5xx ⟨h.1, h.2.1⟩
    simp [gLoop, hresp, h429, hno]

/-- C2 witness: four consecutive 429s with `maxRetries = 3` fail with
the error carrying status 429 and the last body, and a single 404
fails immediately with no sleep. -/
theorem C2_witness :
    ((gRun (fun _ => .failure 429 (some 2) ("slow down")) zeroJitter 3).result =
      .failed (.httpError 429 ("slow down"))) ∧
    (gLoop (fun _ => .failure 404 none ("not found")) zeroJitter 3 0 4 =
      ⟨.failed (.httpError 404 ("not found")), []⟩) :=
  ⟨C2_retry_policy_amended.2.2.2.2.1 (fun _ => .failure 429 (some 2) ("slow down"))
      zeroJitter 3 (fun _ => some 2) (fun _ => "slow down") (fun i _ => rfl),
    C2_retry_policy_amended.2.2.2.2.2 (fun _ => .failure 404 none ("not found"))
      zeroJitter 3 0 3 404 none ("not found") (by omega) (by omega) rfl⟩

/-! The OAuth token cache `getGraphToken` (source lines 45-67).  Time
is in epoch seconds; the token exchange is an oracle. -/

/-- Source: `cachedToken: { token: string; exp: number } | null`. -/
structure CachedToken where
  token : String
  exp : Nat
deriving DecidableEq, Repr

/-- Outcome of the client-credentials exchange: the parsed JSON body
(`access_token`, optional `expires_in`), or a non-ok response with its
status and text. -/
inductive TokenExchange where
  | success (accessToken : String) (expiresIn : Option Nat)
  | failure (status : Nat) (body : String)

inductive TokenOutcome where
  | token (t : String)
  | tokenError (status : Nat) (body : String)
deriving DecidableEq, Repr

/-- Result of one `getGraphToken()` call: returned value (or thrown
error), the new `cachedToken` state, and whether an upstream token
exchange was performed. -/
structure TokenStep where
  outcome : TokenOutcome
  cachedToken : Option CachedToken
  exchanged : Bool
deriving DecidableEq, Repr

/-- Source: `data.expires_in || 3600` — a JavaScript falsy test, so a
missing and a zero `expires_in` both give 3600. -/
def tokenLifetime (expiresIn : Option Nat) : Nat :=
  match expiresIn with
  | some l => if l = 0 then 3600 else l
  | none => 3600

/-- The exchange path of `getGraphToken`: POST the form; on non-ok
throw `Token error: status body`; else store
`{ token, exp: floor(now) + (expires_in || 3600) }` and return it. -/
def runExchange (cached : Option CachedToken) (now : Nat) (exchange : TokenExchange) : TokenStep :=
  match exchange with
  | .success tok life => ⟨.token tok, some ⟨tok, now + tokenLifetime life⟩, true⟩
  | .failure st body => ⟨.tokenError st body, cached, true⟩

/-- Source `getGraphToken`: `if (cachedToken && cachedToken.exp - now > 60)
return cachedToken.token;` else exchange.  Truncated natural
subtraction agrees with the JavaScript comparison for all numeric
inputs. -/
def getGraphToken (cached : Option CachedToken) (now : Nat) (exchange : TokenExchange) : TokenStep :=
  match cached with
  | some c =>
    if c.exp - now > 60 then ⟨.token c.token, some c, false⟩
    else runExchange cached now exchange
  | none => runExchange cached now exchange

/-- C6 counterexample: when the server reports `expires_in: 0`, the
claim's stored expiry `now + server-reported lifetime` would be
`1000 + 0`, but the code's falsy test `data.expires_in || 3600` stores
`1000 + 3600`. -/
theorem C6_counterexample :
    (getGraphToken none 1000 (.success ("tok") (some 0))).cachedToken ≠
      some ⟨"tok", 1000 + 0⟩ ∧
    (getGraphToken none 1000 (.success ("tok") (some 0))).cachedToken =
      some ⟨"tok", 1000 + 3600⟩ := by
  decide

/-- C6 (amended): `getToken()` returns the cached token with no
exchange whenever the cached expiry is more than 60 seconds away;
otherwise it performs a client-credentials exchange, stores the new
token with absolute expiry `now + server-reported lifetime` (3600
seconds when the server omits it or reports 0), and returns the new
token; two `getToken()` calls within the same window make exactly one
upstream token exchange. -/
theorem C6_token_cache_amended :
    (∀ c now ex, c.exp - now > 60 →
        getGraphToken (some c) now ex = ⟨.token c.token, some c, false⟩) ∧
    (∀ now tok life, getGraphToken none now (.success tok life) =
        ⟨.token tok, some ⟨tok, now + tokenLifetime life⟩, true⟩) ∧
    (∀ c now tok life, ¬(c.exp - now > 60) →
        getGraphToken (some c) now (.success tok life) =
          ⟨.token tok, some ⟨tok, now + tokenLifetime life⟩, true⟩) ∧
    (∀ l, l ≠ 0 → tokenLifetime (some l) = l) ∧
    (tokenLifetime none = 3600 ∧ tokenLifetime (some 0) = 3600) ∧
    (∀ now1 now2 tok life ex2 c1,
        (getGraphToken none now1 (.success tok life)).cachedToken = some c1 →
        c1.exp - now2 > 60 →
        (getGraphToken none now1 (.success tok life)).exchanged = true ∧
        (getGraphToken (getGraphToken none now1 (.success tok life)).cachedToken
            now2 ex2).exchanged = false ∧
        (getGraphToken (getGraphToken none now1 (.success tok life)).cachedToken
            now2 ex2).outcome = .token tok) := by
  refine ⟨?_, fun _ _ _ => rfl, ?_, ?_, ⟨rfl, rfl⟩, ?_⟩
  · intro c now ex h
    simp [getGraphToken, h]
  · intro c now tok life h
    simp [getGraphToken, h, runExchange]
  · intro l hl
    simp [tokenLifetime, hl]
  · intro now1 now2 tok life ex2 c1 hc1 hfresh
    have h1 : getGraphToken none now1 (.success tok life) =
        ⟨.token tok, some ⟨tok, now1 + tokenLifetime life⟩, true⟩ := rfl
    rw [h1] at hc1
    injection hc1 with hc1e
    rw [h1]
    refine ⟨rfl, ?_, ?_⟩
    · show (getGraphToken (some ⟨tok, now1 + tokenLifetime life⟩) now2 ex2).exchanged = false
      rw [hc1e]
      simp [getGraphToken, hfresh]
    · show (getGraphToken (some ⟨tok, now1 + tokenLifetime life⟩) now2 ex2).outcome = .token tok
      rw [hc1e]
      have htok : c1.token = tok := by rw [← hc1e]
      simp [getGraphToken, hfresh, htok]

/-- C6 witness: a first call at time 0 exchanges and stores expiry
3600; a second call at time 100 (3500 seconds to expiry) reuses the
cached token with no exchange. -/
theorem C6_witness :
    ((getGraphToken none 0 (.success ("tok") (some 3600))).exchanged = true) ∧
    ((getGraphToken (getGraphToken none 0 (.success ("tok") (some 3600))).cachedToken
        100 (.failure 500 ("unused"))).exchanged = false) ∧
    ((getGraphToken (getGraphToken none 0 (.success ("tok") (some 3600))).cachedToken
        100 (.failure 500 ("unused"))).outcome = .token ("tok")) :=
  C6_token_cache_amended.2.2.2.2.2 0 100 ("tok") (some 3600) (.failure 500 ("unused"))
    ⟨"tok", 0 + tokenLifetime (some 3600)⟩ rfl (by decide)

/-! The `fetch` tool handler (`toolHandlers.fetch` in `src/server.ts`,
the variant implementing the inline/link size gate).  Item metadata and
the downloaded text come in as oracles. -/

/-- One element of a tool result's `content` array. -/
inductive ContentItem where
  | text (s : String)
  | resourceLink (uri : String) (name : String) (mimeType : Option String) (description : String)
deriving DecidableEq, Repr

structure ToolResult where
  content : List ContentItem
deriving DecidableEq, Repr

/-- Drive-item metadata as consulted by `fetch`: `meta.name`,
`meta.file` (presence), `meta.file.mimeType`, and `meta.size` when it
is a number. -/
structure DriveItemMeta where
  name : String
  isFile : Bool
  mimeType : Option String
  size : Option Nat
deriving DecidableEq, Repr

/-- JavaScript `String.prototype.startsWith`, structurally. -/
def charsStartWith : List Char → List Char → Bool
  | [], _ => true
  | _ :: _, [] => false
  | p :: ps, c :: cs => p == c && charsStartWith ps cs

def strStartsWith (s pat : String) : Bool := charsStartWith pat.data s.data

def textFamilyMimes : List String :=
  ["application/json", "application/xml", "application/javascript"]

/-- Source: `mime?.startsWith('text/') ||
['application/json','application/xml','application/javascript'].includes(mime || '')`. -/
def isTextMime (mime : Option String) : Bool :=
  match mime with
  | some m => strStartsWith m ("text/") || textFamilyMimes.contains m
  | none => false

/-- Source: `typeof size === 'number' ? size < 1_000_000 : false`. -/
def under1MB (size : Option Nat) : Bool :=
  match size with
  | some s => decide (s < 1000000)
  | none => false

/-- JavaScript template interpolation of a possibly-undefined value. -/
def showMime (mime : Option String) : String :=
  match mime with
  | some m => m
  | none => "undefined"

def showSize (size : Option Nat) : String :=
  match size with
  | some n => toString n
  | none => "undefined"

def mimeSizeSuffix (meta : DriveItemMeta) : String :=
  "(mime: " ++ showMime meta.mimeType ++ ", size: " ++ showSize meta.size ++ "B)"

/-- Source: `meta.name || id` (empty or missing name falls back to the id). -/
def nameOrId (name id : String) : String := if name = "" then id else name

def graphContentUri (driveId id : String) : String :=
  "https://graph.microsoft.com/v1.0/drives/" ++ driveId ++ "/items/" ++ id ++ "/content"

/-- Source `toolHandlers.fetch`: not a file → descriptive text result;
text-family MIME and size strictly under 1,000,000 bytes → inline
header plus downloaded text; otherwise → message plus resource link
carrying MIME and size. -/
def fetchHandler (driveId id : String) (meta : DriveItemMeta) (downloadedText : String) :
    ToolResult :=
  if !meta.isFile then
    ⟨[.text ("Not a file: " ++ nameOrId meta.name id)]⟩
  else if isTextMime meta.mimeType && under1MB meta.size then
    ⟨[.text ("# " ++ meta.name ++ "\n" ++ mimeSizeSuffix meta), .text downloadedText]⟩
  else
    ⟨[.text ("Large/binary file. Returning link.\n" ++ mimeSizeSuffix meta),
      .resourceLink (graphContentUri driveId id) meta.name meta.mimeType
        ("Download " ++ meta.name)]⟩

/-- C7: `fetch(id)` on a file returns the content inline as text plus
metadata exactly when the MIME type is text-family (`text/*`,
`application/json`, `application/xml`, `application/javascript`) and
the size is strictly under 1,000,000 bytes; a 999,999-byte `text/plain`
file is inlined while a 1,000,000-byte one (or a non-text MIME) yields
a reference link carrying MIME and size; a non-file item yields a
descriptive non-error result. -/
theorem C7_fetch_inline_boundary :
    (∀ driveId id meta dl, meta.isFile = true →
        (isTextMime meta.mimeType && under1MB meta.size) = true →
        fetchHandler driveId id meta dl =
          ⟨[.text ("# " ++ meta.name ++ "\n" ++ mimeSizeSuffix meta), .text dl]⟩) ∧
    (∀ driveId id meta dl, meta.isFile = true →
        (isTextMime meta.mimeType && under1MB meta.size) = false →
        fetchHandler driveId id meta dl =
          ⟨[.text ("Large/binary file. Returning link.\n" ++ mimeSizeSuffix meta),
            .resourceLink (graphContentUri driveId id) meta.name meta.mimeType
              ("Download " ++ meta.name)]⟩) ∧
    (∀ m s, (isTextMime (some m) = (strStartsWith m ("text/") || textFamilyMimes.contains m)) ∧
      (under1MB (some s) = true ↔ s < 1000000)) ∧
    (∀ driveId id meta dl, meta.isFile = false →
        fetchHandler driveId id meta dl =
          ⟨[.text ("Not a file: " ++ nameOrId meta.name id)]⟩) ∧
    (fetchHandler ("d1") ("f1") ⟨"notes.txt", true, some ("text/plain"), some 999999⟩ ("hello") =
      ⟨[.text ("# notes.txt\n(mime: text/plain, size: 999999B)"), .text ("hello")]⟩) ∧
    (fetchHandler ("d1") ("f1") ⟨"notes.txt", true, some ("text/plain"), some 1000000⟩ ("hello") =
      ⟨[.text ("Large/binary file. Returning link.\n(mime: text/plain, size: 1000000B)"),
        .resourceLink (graphContentUri ("d1") ("f1")) ("notes.txt") (some ("text/plain"))
          ("Download notes.txt")]⟩) := by
  refine ⟨?_, ?_, fun m s => ⟨rfl, by simp [under1MB]⟩, ?_, by decide, by decide⟩
  · intro driveId id meta dl hfile hgate
    simp [fetchHandler, hfile, hgate]
  · intro driveId id meta dl hfile hgate
    simp [fetchHandler, hfile, hgate]
  · intro driveId id meta dl hfile
    simp [fetchHandler, hfile]

/-- C7 witness: the inline clause applied at a concrete text/plain
999,999-byte file, and the link clause at a concrete PDF. -/
theorem C7_witness :
    (fetchHandler ("d2") ("f2") ⟨"a.txt", true, some ("text/plain"), some 999999⟩ ("body") =
      ⟨[.text ("# " ++ (⟨"a.txt", true, some ("text/plain"), some 999999⟩ : DriveItemMeta).name ++
          "\n" ++ mimeSizeSuffix ⟨"a.txt", true, some ("text/plain"), some 999999⟩),
        .text ("body")]⟩) ∧
    (fetchHandler ("d2") ("f3") ⟨"a.pdf", true, some ("application/pdf"), some 10⟩ ("x") =
      ⟨[.text ("Large/binary file. Returning link.\n" ++
          mimeSizeSuffix ⟨"a.pdf", true, some ("application/pdf"), some 10⟩),
        .resourceLink (graphContentUri ("d2") ("f3")) ("a.pdf") (some ("application/pdf"))
          ("Download " ++ "a.pdf")]⟩) :=
  ⟨C7_fetch_inline_boundary.1 ("d2") ("f2") ⟨"a.txt", true, some ("text/plain"), some 999999⟩
      ("body") (by decide) (by decide),
    C7_fetch_inline_boundary.2.1 ("d2") ("f3") ⟨"a.pdf", true, some ("application/pdf"), some 10⟩
      ("x") (by decide) (by decide)⟩

/-! The JSON-RPC batch engine behind `POST /mcp` (main variant, lines
382-536).  Tool handler outcomes come from an oracle mapping tool name
to a returned result or a thrown exception message. -/

/-- Method of one JSON-RPC request in the batch. -/
inductive McpMethod where
  | initReq (protocolVersion : Option String)
  | toolsList
  | toolsCall (name : String)
  | otherMethod (m : String)
deriving DecidableEq, Repr

structure McpRequest where
  id : Nat
  method : McpMethod
deriving DecidableEq, Repr

/-- Outcome of invoking a registered tool handler. -/
inductive ToolRun where
  | returns (r : ToolResult)
  | throws (msg : String)
deriving DecidableEq, Repr

/-- Result payloads (capability/serverInfo statics of the `initialize`
result and the tool catalogue of `tools/list` are constants and are
abbreviated to their distinguishing parts). -/
inductive RpcPayload where
  | initResult (protocolVersion : String)
  | toolsListResult
  | toolResult (r : ToolResult)
deriving DecidableEq, Repr

inductive RpcResponse where
  | success (p : RpcPayload) (id : Nat)
  | rpcError (code : Int) (message : String) (id : Nat)
deriving DecidableEq, Repr

/-- Source: `new Set(['2024-11-05', '2025-03-26', '2025-06-18'])`. -/
def supportedVersions : List String := ["2024-11-05", "2025-03-26", "2025-06-18"]

/-- Source: the fallback in `requested && supported.has(requested) ?
requested : '2025-06-18'`. -/
def defaultVersion : String := "2025-06-18"

/-- Source: `const chosen = requested && supported.has(requested) ?
requested : '2025-06-18';` (the truthiness test makes an empty string
fall back, like an absent one). -/
def negotiateVersion (requested : Option String) : String :=
  match requested with
  | some v => if v ≠ "" ∧ v ∈ supportedVersions then v else defaultVersion
  | none => defaultVersion

/-- Source: the own keys of the object literal `mcpTools`. -/
def toolNames : List String := ["search", "fetch"]

/-- The properties a plain object literal inherits from
`Object.prototype`: the eleven function-valued members plus the
`__proto__` accessor (whose getter yields the `Object.prototype`
object).  Every one of them is truthy. -/
def objectProtoNames : List String :=
  ["constructor", "toString", "toLocaleString", "valueOf", "hasOwnProperty",
   "isPrototypeOf", "propertyIsEnumerable", "__proto__",
   "__defineGetter__", "__defineSetter__", "__lookupGetter__", "__lookupSetter__"]

/-- Source: `const handler = mcpTools[name as keyof typeof mcpTools];
if (!handler) ...`.  JavaScript property access traverses the
prototype chain, so the lookup yields a truthy value exactly when
`name` is an own key of `mcpTools` or a property inherited from
`Object.prototype`; only for every other name is the looked-up
`handler` undefined and `!handler` true. -/
def mcpToolsResolves (name : String) : Bool :=
  toolNames.contains name || objectProtoNames.contains name

/-- One iteration of the request loop: the response pushed for one
request given the current per-batch `initialized` flag.  The
`handlers` oracle gives the outcome of `await handler(args)` for the
member `mcpTools[name]` resolves to: for "search"/"fetch" the
registered tool handler, otherwise the inherited `Object.prototype`
member (e.g. `toString` called this way returns a value, which the
loop pushes as a success result; `__proto__` resolves to a
non-callable object, so the call throws a TypeError, which the
`catch` turns into error -32603). -/
def evalEntry (handlers : String → ToolRun) (inited : Bool) (req : McpRequest) : RpcResponse :=
  match req.method with
  | .initReq pv =>
    if inited then .rpcError (-32600) ("Already initialized") req.id
    else .success (.initResult (negotiateVersion pv)) req.id
  | .toolsList =>
    if inited then .success .toolsListResult req.id
    else .rpcError (-32600) ("Not initialized") req.id
  | .toolsCall name =>
    if inited then
      if mcpToolsResolves name then
        match handlers name with
        | .returns r => .success (.toolResult r) req.id
        | .throws m => .rpcError (-32603) m req.id
      else .rpcError (-32601) ("Tool not found: " ++ name) req.id
    else .rpcError (-32600) ("Not initialized") req.id
  | .otherMethod m => .rpcError (-32601) ("Method not found: " ++ m) req.id

def isInitReq (req : McpRequest) : Bool :=
  match req.method with
  | .initReq _ => true
  | _ => false

/-- The request loop: processes entries strictly in order, threading
the `initialized` flag (set by the first `initialize` and never
cleared within the batch), pushing exactly one response per request. -/
def processBatch (handlers : String → ToolRun) : Bool → List McpRequest → List RpcResponse
  | _, [] => []
  | inited, req :: rest =>
    evalEntry handlers inited req :: processBatch handlers (inited || isInitReq req) rest

/-- The request body: `Array.isArray(req.body)` distinguishes a batch
from a single object. -/
inductive McpBody where
  | single (r : McpRequest)
  | batch (rs : List McpRequest)

inductive McpOut where
  | objectOut (o : RpcResponse)
  | arrayOut (os : List RpcResponse)
deriving DecidableEq, Repr

/-- The whole handler: a batch answers with the response array, a
single object with `responses[0]` — and the loop pushes exactly one
response per request, so `responses[0]` for the one-element wrapped
batch is that request's response. -/
def handleBody (handlers : String → ToolRun) : McpBody → McpOut
  | .batch rs => .arrayOut (processBatch handlers false rs)
  | .single r => .objectOut (evalEntry handlers false r)

theorem processBatch_length (handlers : String → ToolRun) :
    ∀ (rs : List McpRequest) (b : Bool), (processBatch handlers b rs).length = rs.length := by
  intro rs
  induction rs with
  | nil => intro b; rfl
  | cons r rest ih => intro b; simp [processBatch, ih]

theorem processBatch_get (handlers : String → ToolRun) :
    ∀ (rs : List McpRequest) (b : Bool) (i : Nat) (h1 : i < rs.length)
      (h2 : i < (processBatch handlers b rs).length),
      (processBatch handlers b rs).get ⟨i, h2⟩ =
        evalEntry handlers (b || (rs.take i).any isInitReq) (rs.get ⟨i, h1⟩) := by
  intro rs
  induction rs with
  | nil => intro b i h1 h2; exact absurd h1 (by simp)
  | cons r rest ih =>
    intro b i h1 h2
    cases i with
    | zero => simp [processBatch]
    | succ i =>
      have h1' : i < rest.length := by simpa using h1
      have h2' : i < (processBatch handlers (b || isInitReq r) rest).length := by
        rw [processBatch_length]; exact h1'
      have hstep : (processBatch handlers b (r :: rest)).get ⟨i + 1, h2⟩ =
          (processBatch handlers (b || isInitReq r) rest).get ⟨i, h2'⟩ := rfl
      rw [hstep, ih (b || isInitReq r) i h1' h2']
      simp [Bool.or_assoc]

/-- Lexicographic order on strings (structural, so concrete instances
compute); on ISO date-stamped version strings it is chronological
order. -/
def charListLe : List Char → List Char → Bool
  | [], _ => true
  | _ :: _, [] => false
  | a :: as, b :: bs =>
    if a < b then true
    else if b < a then false
    else charListLe as bs

def strLe (s1 s2 : String) : Bool := charListLe s1.data s2.data

/-- A handler oracle whose tools all return an empty result. -/
def noHandlers : String → ToolRun := fun _ => .returns ⟨[]⟩

/-- A handler oracle whose tools all throw. -/
def throwingHandlers : String → ToolRun := fun _ => .throws ("boom")

/-- C5: entries of a batch posted to `/mcp` are processed strictly in
array order, each independently against the per-batch `initialized`
flag (true exactly when an earlier entry of the batch was an
`initialize`): the response list has one response per request in the
same order, with entry `i` computed by `evalEntry` from request `i`
alone; `tools/list` or `tools/call` before `initialize` yields error
-32600 for that entry without short-circuiting later entries; a second
`initialize` yields error -32600 "Already initialized"; and the output
mirrors the input shape — array in, array of the same length out;
single object in, single object out. -/
theorem C5_batch_order_and_shape (handlers : String → ToolRun) :
    (∀ rs : List McpRequest, (processBatch handlers false rs).length = rs.length) ∧
    (∀ (rs : List McpRequest) (i : Nat) (h1 : i < rs.length)
        (h2 : i < (processBatch handlers false rs).length),
        (processBatch handlers false rs).get ⟨i, h2⟩ =
          evalEntry handlers ((rs.take i).any isInitReq) (rs.get ⟨i, h1⟩)) ∧
    (∀ id, evalEntry handlers false ⟨id, .toolsList⟩ =
        .rpcError (-32600) ("Not initialized") id) ∧
    (∀ id name, evalEntry handlers false ⟨id, .toolsCall name⟩ =
        .rpcError (-32600) ("Not initialized") id) ∧
    (∀ id pv, evalEntry handlers true ⟨id, .initReq pv⟩ =
        .rpcError (-32600) ("Already initialized") id) ∧
    (∀ rs, handleBody handlers (.batch rs) = .arrayOut (processBatch handlers false rs)) ∧
    (∀ r, handleBody handlers (.single r) = .objectOut (evalEntry handlers false r) ∧
      processBatch handlers false [r] = [evalEntry handlers false r]) := by
  refine ⟨fun rs => processBatch_length handlers rs false, ?_, fun id => rfl, fun id name => rfl,
    fun id pv => rfl, fun rs => rfl, fun r => ⟨rfl, rfl⟩⟩
  intro rs i h1 h2
  have := processBatch_get handlers rs false i h1 h2
  simpa using this

/-- C5 witness: the batch `[tools/call search, initialize]` (call
before initialize) produces `[error -32600 "Not initialized",
initialize result]` — the out-of-order call does not short-circuit the
later initialize. -/
theorem C5_witness :
    ((processBatch noHandlers false
        [⟨0, .toolsCall ("search")⟩, ⟨1, .initReq (some ("2025-06-18"))⟩]).get ⟨0, by decide⟩ =
      .rpcError (-32600) ("Not initialized") 0) ∧
    ((processBatch noHandlers false
        [⟨0, .toolsCall ("search")⟩, ⟨1, .initReq (some ("2025-06-18"))⟩]).get ⟨1, by decide⟩ =
      .success (.initResult ("2025-06-18")) 1) :=
  ⟨((C5_batch_order_and_shape noHandlers).2.1
        [⟨0, .toolsCall ("search")⟩, ⟨1, .initReq (some ("2025-06-18"))⟩]
        0 (by decide) (by decide)).trans (by decide),
    ((C5_batch_order_and_shape noHandlers).2.1
        [⟨0, .toolsCall ("search")⟩, ⟨1, .initReq (some ("2025-06-18"))⟩]
        1 (by decide) (by decide)).trans (by decide)⟩

/-- C8 counterexample: "toString" is not in the tool registry (its own
keys are "search" and "fetch"), yet `tools/call` with name "toString"
after initialize does not yield the -32601 tool-not-found error: the
prototype-chain lookup `mcpTools["toString"]` finds the inherited
`Object.prototype.toString`, which is invoked and returns a value, so
a success envelope is pushed; likewise "__proto__" resolves to a
non-callable object whose invocation throws, yielding -32603 — so
"tools/call with a name not in the registry yields error -32601" is
false as stated. -/
theorem C8_counterexample :
    (toolNames.contains ("toString") = false) ∧
    (evalEntry noHandlers true ⟨9, .toolsCall ("toString")⟩ =
      .success (.toolResult ⟨[]⟩) 9) ∧
    (evalEntry noHandlers true ⟨9, .toolsCall ("toString")⟩ ≠
      .rpcError (-32601) ("Tool not found: toString") 9) ∧
    (toolNames.contains ("__proto__") = false) ∧
    (evalEntry throwingHandlers true ⟨10, .toolsCall ("__proto__")⟩ =
      .rpcError (-32603) ("boom") 10) := by
  decide

/-- C8 (amended): after initialize within a batch, `tools/call` with a
name on which the `mcpTools` lookup resolves nothing — a name that is
neither an own registry key ("search", "fetch") nor a property
inherited from `Object.prototype` — yields error -32601 "Tool not
found: name" (e.g. name "delete"); a name that does resolve (a
registered tool, or an inherited member such as "toString" or
"__proto__") is invoked: a returned value is pushed as a success
envelope and a thrown exception is caught and surfaced as error -32603
carrying its message; any other unknown method yields error -32601
"Method not found: method"; and no entry aborts the remaining entries
of the batch (one response per request, always). -/
theorem C8_tool_and_method_errors (handlers : String → ToolRun) :
    (∀ id name, mcpToolsResolves name = false →
        evalEntry handlers true ⟨id, .toolsCall name⟩ =
          .rpcError (-32601) ("Tool not found: " ++ name) id) ∧
    (∀ name, mcpToolsResolves name = false ↔
        (toolNames.contains name = false ∧ objectProtoNames.contains name = false)) ∧
    (mcpToolsResolves ("delete") = false ∧
      ∀ id, evalEntry handlers true ⟨id, .toolsCall ("delete")⟩ =
        .rpcError (-32601) ("Tool not found: delete") id) ∧
    (∀ id name r, mcpToolsResolves name = true → handlers name = .returns r →
        evalEntry handlers true ⟨id, .toolsCall name⟩ = .success (.toolResult r) id) ∧
    (∀ id name msg, mcpToolsResolves name = true → handlers name = .throws msg →
        evalEntry handlers true ⟨id, .toolsCall name⟩ = .rpcError (-32603) msg id) ∧
    (∀ id m, evalEntry handlers true ⟨id, .otherMethod m⟩ =
        .rpcError (-32601) ("Method not found: " ++ m) id) ∧
    (∀ (rs : List McpRequest) (b : Bool), (processBatch handlers b rs).length = rs.length) := by
  refine ⟨?_, ?_, ⟨by decide, fun id => rfl⟩, ?_, ?_, fun id m => rfl,
    processBatch_length handlers⟩
  · intro id name h
    simp [evalEntry, h]
  · intro name
    simp [mcpToolsResolves]
  · intro id name r hres hret
    simp [evalEntry, hres, hret]
  · intro id name msg hres hthrow
    simp [evalEntry, hres, hthrow]

/-- C8 witness: `tools/call` of "rm" (resolving nothing) yields the
-32601 tool-not-found error; a throwing handler for the registered
"search" yields -32603 with its message; and the resolving inherited
name "toString" yields a success envelope. -/
theorem C8_witness :
    (evalEntry noHandlers true ⟨7, .toolsCall ("rm")⟩ =
      .rpcError (-32601) ("Tool not found: " ++ "rm") 7) ∧
    (evalEntry throwingHandlers true ⟨8, .toolsCall ("search")⟩ =
      .rpcError (-32603) ("boom") 8) ∧
    (evalEntry noHandlers true ⟨11, .toolsCall ("toString")⟩ =
      .success (.toolResult ⟨[]⟩) 11) :=
  ⟨(C8_tool_and_method_errors noHandlers).1 7 ("rm") (by decide),
    (C8_tool_and_method_errors throwingHandlers).2.2.2.2.1 8 ("search") ("boom") (by decide) rfl,
    (C8_tool_and_method_errors noHandlers).2.2.2.1 11 ("toString") ⟨[]⟩ (by decide) rfl⟩

/-- C9: the `initialize` result's `protocolVersion` equals the client's
requested version when it is one of the supported versions, and equals
the engine's newest supported version ("2025-06-18", the maximum of
the date-stamped set) when the requested version is unsupported or
omitted. -/
theorem C9_version_negotiation (handlers : String → ToolRun) :
    (∀ id pv, evalEntry handlers false ⟨id, .initReq pv⟩ =
        .success (.initResult (negotiateVersion pv)) id) ∧
    (∀ v, v ∈ supportedVersions → negotiateVersion (some v) = v) ∧
    (∀ v, v ∉ supportedVersions → negotiateVersion (some v) = defaultVersion) ∧
    (negotiateVersion none = defaultVersion) ∧
    (defaultVersion ∈ supportedVersions ∧
      ∀ v ∈ supportedVersions, strLe v defaultVersion = true) := by
  refine ⟨fun id pv => rfl, ?_, ?_, rfl, by decide, by decide⟩
  · intro v hv
    have hv2 := hv
    simp only [supportedVersions, List.mem_cons, List.mem_singleton] at hv2
    rcases hv2 with rfl | rfl | hv2
    · decide
    · decide
    · simp only [List.not_mem_nil, or_false] at hv2
      rw [hv2]
      decide
  · intro v hv
    have : ¬(v ≠ "" ∧ v ∈ supportedVersions) := fun h => hv h.2
    simp [negotiateVersion, this]

/-- C9 witness: requested "2024-11-05" (supported) is accepted
verbatim; requested "1999-01-01" (unsupported) and an omitted request
both get the default "2025-06-18". -/
theorem C9_witness :
    (negotiateVersion (some ("2024-11-05")) = "2024-11-05") ∧
    (negotiateVersion (some ("1999-01-01")) = defaultVersion) :=
  ⟨(C9_version_negotiation noHandlers).2.1 ("2024-11-05") (by decide),
    (C9_version_negotiation noHandlers).2.2.1 ("1999-01-01") (by decide)⟩

end SharepointMcp
